import Mathlib

/-!
# Verification of the Smart_Traffic_System backend core

Shallow embedding of `backend/app/core/{graph_manager, simulation_manager,
routing_service, traffic_light_service}.py` and `backend/app/models.py`.

Modelling conventions:
* Python `float` values (travel times, congestion levels) are modelled as `ℚ`;
  Python `int` as `ℤ` (vehicle counts, capacities) or `ℕ` (list indices).
* The module-level globals `CITY_GRAPH` (a `networkx.DiGraph`), `ROAD_DATA`
  and the vehicle table are modelled as an explicit state record threaded
  through the operations.  `CITY_GRAPH`'s node set and edge-attribute dict and
  the `ROAD_DATA` dict are association lists in insertion order, matching
  Python-dict / networkx semantics (updating an existing key rewrites it in
  place, a new key is appended).
* Road identifiers are the structured pair `(source, target)`; the
  `"source-target"` string encoding and its parsing are not modelled (claims
  are about roads already identified by their endpoints).
* Node coordinates and the spring-layout position computation in `load_map`
  are cosmetic (visualisation only) and are not part of the state.
-/

namespace Traffic

/-- A road key: `(source, target)` intersection ids. -/
abbrev Key := String × String

/-- `models.Node` (coordinates omitted: cosmetic only). -/
structure NodeIn where
  id : String
  name : String
deriving DecidableEq, Repr

/-- `models.Edge`. -/
structure EdgeIn where
  source : String
  target : String
  base_travel_time : ℚ
  capacity : ℤ
deriving DecidableEq, Repr

/-- `models.CityMap`. -/
structure CityMap where
  nodes : List NodeIn
  edges : List EdgeIn
deriving DecidableEq, Repr

/-- The attributes stored on a `CITY_GRAPH` edge by `load_map` /
`update_traffic_on_road`. -/
structure EdgeRec where
  base_travel_time : ℚ
  current_travel_time : ℚ
deriving DecidableEq, Repr

/-- One `ROAD_DATA` entry. -/
structure RoadRec where
  base_travel_time : ℚ
  capacity : ℤ
  current_congestion : ℚ
  current_vehicles : ℤ
deriving DecidableEq, Repr

/-- The module-level mutable state of `graph_manager`: `CITY_GRAPH`'s node
list, its edge-attribute map, and `ROAD_DATA`. -/
structure NetState where
  nodes : List String
  edges : List (Key × EdgeRec)
  road_data : List (Key × RoadRec)
deriving DecidableEq, Repr

/-! ## Python-dict association lists -/

/-- First-match lookup in an association list (Python dict read). -/
def lookupK {κ α : Type} [DecidableEq κ] : List (κ × α) → κ → Option α
  | [], _ => none
  | (k', v) :: rest, k => if k' = k then some v else lookupK rest k

/-- Python dict write: replace the first binding of `k` in place, else append. -/
def setKey {κ α : Type} [DecidableEq κ] : List (κ × α) → κ → α → List (κ × α)
  | [], k, v => [(k, v)]
  | (k', v') :: rest, k, v =>
      if k' = k then (k, v) :: rest else (k', v') :: setKey rest k v

theorem lookupK_setKey_self {κ α : Type} [DecidableEq κ]
    (m : List (κ × α)) (k : κ) (v : α) : lookupK (setKey m k v) k = some v := by
  induction m with
  | nil => simp [setKey, lookupK]
  | cons hd tl ih =>
      obtain ⟨k', v'⟩ := hd
      by_cases h : k' = k
      · simp [setKey, h, lookupK]
      · simp [setKey, h, lookupK, ih]

theorem lookupK_setKey_ne {κ α : Type} [DecidableEq κ]
    (m : List (κ × α)) (k k' : κ) (v : α) (h : k' ≠ k) :
    lookupK (setKey m k v) k' = lookupK m k' := by
  induction m with
  | nil => simp [setKey, lookupK, Ne.symm h]
  | cons hd tl ih =>
      obtain ⟨a, b⟩ := hd
      by_cases ha : a = k
      · subst ha
        simp [setKey, lookupK, Ne.symm h]
      · by_cases hb : a = k'
        · subst hb
          simp [setKey, ha, lookupK]
        · simp [setKey, ha, lookupK, hb, ih]

theorem lookupK_setKey_isSome {κ α : Type} [DecidableEq κ]
    (m : List (κ × α)) (k : κ) (v : α) (hk : (lookupK m k).isSome) (k' : κ) :
    (lookupK (setKey m k v) k').isSome = (lookupK m k').isSome := by
  by_cases h : k' = k
  · subst h
    simp [lookupK_setKey_self, hk]
  · simp [lookupK_setKey_ne m k k' v h]

/-! ## graph_manager: congestion / penalty arithmetic -/

/-- `max(0.0, min(1.0, x))` — the clamp in `update_traffic_on_road`. -/
def clamp01 (x : ℚ) : ℚ := max 0 (min 1 x)

/-- The saturating travel-time penalty computed in
`simulation_manager.update_vehicle_positions` (lines 101–104):
`1 / (1 - 0.9 c)` below `c = 0.99`, else a fixed `20`.  (The spec's §4.1
travel-time penalty uses the same formula.) -/
def satPenalty (c : ℚ) : ℚ :=
  if c < 99 / 100 then 1 / (1 - c * (9 / 10)) else 20

/-- The congestion derivation written in spec §4.1 (piecewise `0.6`-based
formula).  `graph_manager.update_traffic_on_road` does *not* use this formula;
it is stated here so claims can be compared against it, and it is used by the
spec-modelled occupancy adjustment below. -/
def specCongestion (count capacity : ℤ) : ℚ :=
  if capacity ≤ 0 then (if 0 < count then 1 else 0)
  else if count ≤ capacity then (3 / 5) * ((count : ℚ) / (capacity : ℚ))
  else (3 / 5) + (2 / 5) * min 1 (((count - capacity : ℤ) : ℚ) / ((1 / 2) * (capacity : ℚ)))

/-! ## graph_manager.load_map -/

/-- `networkx.DiGraph.add_node`: inserts the id if absent (re-adding an
existing node only rewrites its cosmetic attributes). -/
def addNode (ns : List String) (n : String) : List String :=
  if n ∈ ns then ns else ns ++ [n]

/-- Processing one `city_map.edges` entry in `load_map`:
`CITY_GRAPH.add_edge` (which implicitly adds missing endpoint nodes and sets
`base_travel_time` / `current_travel_time`) followed by the `ROAD_DATA`
initialisation. -/
def loadEdge (s : NetState) (e : EdgeIn) : NetState :=
  { nodes := addNode (addNode s.nodes e.source) e.target
    edges := setKey s.edges (e.source, e.target)
      ⟨e.base_travel_time, e.base_travel_time⟩
    road_data := setKey s.road_data (e.source, e.target)
      ⟨e.base_travel_time, e.capacity, 0, 0⟩ }

/-- `graph_manager.load_map`: clears all three globals, adds every declared
node, then adds every edge.  The function performs no validation and always
returns `True` (the `Bool` component). -/
def load_map (m : CityMap) : NetState × Bool :=
  let s0 : NetState := ⟨[], [], []⟩
  let s1 := m.nodes.foldl (fun s nd => { s with nodes := addNode s.nodes nd.id }) s0
  (m.edges.foldl loadEdge s1, true)

/-! ## graph_manager.update_traffic_on_road -/

/-- `graph_manager.update_traffic_on_road` (lines 165–199), with the road id
already parsed into its `(source, target)` key.  Returns the new state and the
Python boolean result (`False` = road not found in the graph). -/
def update_traffic_on_road (s : NetState) (k : Key)
    (congestion_level : Option ℚ) (vehicle_count : Option ℤ) : NetState × Bool :=
  match lookupK s.edges k with
  | none => (s, false)
  | some er =>
      -- self-heal: a graph edge without a ROAD_DATA record gets defaults
      let rd : RoadRec := (lookupK s.road_data k).getD
        ⟨er.base_travel_time, 100, 0, 0⟩
      let rd1 : RoadRec :=
        match congestion_level with
        | some c => { rd with current_congestion := clamp01 c }
        | none => rd
      let rd2 : RoadRec :=
        match vehicle_count with
        | some n =>
            if 0 < rd1.capacity then
              { rd1 with
                current_vehicles := n
                current_congestion := min 1 ((n : ℚ) / ((rd1.capacity : ℚ) * (3 / 2))) }
            else
              { rd1 with
                current_vehicles := n
                current_congestion := if 0 < n then 1 else 0 }
        | none => rd1
      let ctt := rd2.base_travel_time * (1 + 4 * rd2.current_congestion)
      ({ s with
          road_data := setKey s.road_data k rd2
          edges := setKey s.edges k { er with current_travel_time := ctt } }, true)

/-! ## Spec-modelled occupancy adjustment -/

/-- Modelled from the spec: `graph_manager.update_road_vehicle_count` is
invoked throughout `simulation_manager.update_vehicle_positions` but is not
defined anywhere under `src/` — only its callers are.  Spec §4.1
`AdjustOccupancy(segment, delta)`: clamps the resulting count to `≥ 0`,
recomputes that segment's congestion (count/capacity derivation, clamped to
`[0,1]`) and travel time (saturating penalty) in the same step, and fails
with `UnknownRoad` (here: the `false` flag, state unchanged) when the segment
is not in the topology.  A missing dynamic record for an existing edge is
reinitialised with defaults (spec §7 `MissingSegmentRecord` self-healing,
using the same defaults as `update_traffic_on_road`). -/
def update_road_vehicle_count (s : NetState) (k : Key) (delta : ℤ) :
    NetState × Bool :=
  match lookupK s.edges k with
  | none => (s, false)
  | some er =>
      let rd : RoadRec := (lookupK s.road_data k).getD
        ⟨er.base_travel_time, 100, 0, 0⟩
      let n := max 0 (rd.current_vehicles + delta)
      let c := clamp01 (specCongestion n rd.capacity)
      let ctt := rd.base_travel_time * satPenalty c
      ({ s with
          road_data := setKey s.road_data k
            { rd with current_vehicles := n, current_congestion := c }
          edges := setKey s.edges k
            { er with current_travel_time := ctt } }, true)

/-! ## Concrete states used by counterexamples and witnesses -/

/-- A two-node map with the single road `A → B` (base time 10, capacity 100). -/
def demoMap : CityMap :=
  ⟨[⟨"A", "Alpha"⟩, ⟨"B", "Beta"⟩], [⟨"A", "B", 10, 100⟩]⟩

/-- The state right after `load_map demoMap`. -/
def demoState : NetState := (load_map demoMap).1

/-- A map whose only edge references the undeclared node `"Z"`. -/
def badMap : CityMap := ⟨[⟨"A", "Alpha"⟩], [⟨"A", "Z", 10, 100⟩]⟩

theorem demoState_eq : demoState =
    ⟨["A", "B"], [(("A", "B"), ⟨10, 10⟩)], [(("A", "B"), ⟨10, 100, 0, 0⟩)]⟩ := by
  decide

/-! ## Characterisation of `update_traffic_on_road` on an existing road -/

/-- Unfolding of `update_traffic_on_road` when the road exists in the graph
and has a `ROAD_DATA` record. -/
theorem update_traffic_eq (s : NetState) (k : Key) (cl : Option ℚ)
    (vc : Option ℤ) (er : EdgeRec) (rd : RoadRec)
    (he : lookupK s.edges k = some er) (hr : lookupK s.road_data k = some rd) :
    update_traffic_on_road s k cl vc =
      (let rd1 : RoadRec :=
        match cl with
        | some c => { rd with current_congestion := clamp01 c }
        | none => rd
       let rd2 : RoadRec :=
        match vc with
        | some n =>
            if 0 < rd1.capacity then
              { rd1 with
                current_vehicles := n
                current_congestion := min 1 ((n : ℚ) / ((rd1.capacity : ℚ) * (3 / 2))) }
            else
              { rd1 with
                current_vehicles := n
                current_congestion := if 0 < n then 1 else 0 }
        | none => rd1
       ({ s with
          road_data := setKey s.road_data k rd2
          edges := setKey s.edges k
            { er with current_travel_time :=
                rd2.base_travel_time * (1 + 4 * rd2.current_congestion) } }, true)) := by
  simp only [update_traffic_on_road, he, hr, Option.getD_some]

/-! ## C1: stored travel-time formula -/

/-- C1 counterexample.  The claim says the stored `current_travel_time` after
a traffic update equals `base_travel_time × 1/(1 − 0.9c)` for `c < 0.99`
(`base × 20` otherwise).  On the loaded demo map, updating road `A→B` with
congestion level `1/2` stores `current_travel_time = 30 = 10 × (1 + 4 × 1/2)`,
whereas the claimed formula gives `10 × 1/(1 − 0.45) = 200/11 ≠ 30`. -/
theorem stored_travel_time_not_saturating :
    (lookupK (update_traffic_on_road demoState ("A", "B") (some (1/2)) none).1.edges
        ("A", "B")).map EdgeRec.current_travel_time = some 30 ∧
    (lookupK (update_traffic_on_road demoState ("A", "B") (some (1/2)) none).1.road_data
        ("A", "B")).map RoadRec.current_congestion = some (1/2) ∧
    (30 : ℚ) ≠ 10 * satPenalty (1/2) ∧ (30 : ℚ) ≠ 10 * 20 := by
  rw [update_traffic_eq demoState ("A", "B") (some (1/2)) none ⟨10, 10⟩
    ⟨10, 100, 0, 0⟩ (by rw [demoState_eq]; simp [lookupK])
    (by rw [demoState_eq]; simp [lookupK])]
  refine ⟨?_, ?_, ?_, by norm_num⟩
  · simp only [lookupK_setKey_self, Option.map_some]
    norm_num [clamp01, min_def, max_def]
  · simp only [lookupK_setKey_self, Option.map_some]
    norm_num [clamp01, min_def, max_def]
  · rw [show satPenalty (1/2) = 20/11 by norm_num [satPenalty]]
    norm_num

/-- C1 amended: after `update_traffic_on_road` succeeds on a road, the stored
`current_travel_time` equals `base_travel_time × (1 + 4 × c)` — the linear
1×-to-5× penalty of `graph_manager` (lines 196–197) — where `c` is the road's
resulting congestion; the saturating `1/(1 − 0.9c)` / `×20` formula is not
used for the stored value. -/
theorem update_traffic_stores_linear_penalty (s : NetState) (k : Key)
    (cl : Option ℚ) (vc : Option ℤ) (er : EdgeRec) (rd : RoadRec)
    (he : lookupK s.edges k = some er) (hr : lookupK s.road_data k = some rd) :
    ∀ rd', lookupK (update_traffic_on_road s k cl vc).1.road_data k = some rd' →
      lookupK (update_traffic_on_road s k cl vc).1.edges k =
        some { er with current_travel_time :=
                 rd'.base_travel_time * (1 + 4 * rd'.current_congestion) } := by
  intro rd' hrd'
  rw [update_traffic_eq s k cl vc er rd he hr] at hrd' ⊢
  simp only [lookupK_setKey_self] at hrd' ⊢
  rw [Option.some.injEq] at hrd'
  rw [hrd']

/-- C1 witness: the amended theorem applied to the demo state. -/
theorem update_traffic_stores_linear_penalty_witness :
    lookupK (update_traffic_on_road demoState ("A", "B") (some (1/2)) none).1.edges
      ("A", "B") = some ⟨10, 30⟩ := by
  have h := update_traffic_stores_linear_penalty demoState ("A", "B")
    (some (1/2)) none ⟨10, 10⟩ ⟨10, 100, 0, 0⟩
    (by rw [demoState_eq]; simp [lookupK])
    (by rw [demoState_eq]; simp [lookupK])
    ⟨10, 100, 1/2, 0⟩ ?_
  · rw [h]
    norm_num
  · rw [update_traffic_eq demoState ("A", "B") (some (1/2)) none ⟨10, 10⟩
      ⟨10, 100, 0, 0⟩ (by rw [demoState_eq]; simp [lookupK])
      (by rw [demoState_eq]; simp [lookupK])]
    simp only [lookupK_setKey_self]
    norm_num [clamp01, min_def, max_def]

/-! ## C2: congestion derived from a vehicle count -/

/-- C2 counterexample.  The claim (spec §4.1) derives congestion with the
piecewise `0.6`-based formula; for `count = 60 ≤ capacity = 100` it gives
`0.6 × 60/100 = 9/25`.  The code stores `min(1, 60/(100 × 1.5)) = 2/5`. -/
theorem count_congestion_not_piecewise :
    (lookupK (update_traffic_on_road demoState ("A", "B") none (some 60)).1.road_data
        ("A", "B")).map RoadRec.current_congestion = some (2/5) ∧
    clamp01 (specCongestion 60 100) = 9/25 ∧ (2/5 : ℚ) ≠ 9/25 := by
  refine ⟨?_, ?_, by norm_num⟩
  · rw [update_traffic_eq demoState ("A", "B") none (some 60) ⟨10, 10⟩
      ⟨10, 100, 0, 0⟩ (by rw [demoState_eq]; simp [lookupK])
      (by rw [demoState_eq]; simp [lookupK])]
    simp only [lookupK_setKey_self, Option.map_some]
    norm_num [min_def]
  · norm_num [clamp01, specCongestion, min_def, max_def]

/-- C2 amended: when `update_traffic_on_road` is given a vehicle count `n`
(with or without a congestion level, which is then irrelevant), the stored
congestion is `min(1, n / (capacity × 1.5))` if `capacity > 0`, and `1` for
`n > 0` / `0` otherwise if `capacity ≤ 0` (this degenerate branch is the only
part the claim got right); there is no lower clamp, so a negative count
yields a negative congestion. -/
theorem update_traffic_count_derivation (s : NetState) (k : Key)
    (cl : Option ℚ) (n : ℤ) (er : EdgeRec) (rd : RoadRec)
    (he : lookupK s.edges k = some er) (hr : lookupK s.road_data k = some rd) :
    (lookupK (update_traffic_on_road s k cl (some n)).1.road_data k).map
        RoadRec.current_congestion =
      some (if 0 < rd.capacity then min 1 ((n : ℚ) / ((rd.capacity : ℚ) * (3 / 2)))
            else if 0 < n then 1 else 0) := by
  rw [update_traffic_eq s k cl (some n) er rd he hr]
  cases cl <;> by_cases hcap : 0 < rd.capacity <;>
    simp [lookupK_setKey_self, hcap]

/-- C2 witness: the amended theorem applied to the demo state
(`capacity = 100 > 0`, count 60). -/
theorem update_traffic_count_derivation_witness :
    (lookupK (update_traffic_on_road demoState ("A", "B") none (some 60)).1.road_data
        ("A", "B")).map RoadRec.current_congestion = some (2/5) := by
  have h := update_traffic_count_derivation demoState ("A", "B") none 60
    ⟨10, 10⟩ ⟨10, 100, 0, 0⟩ (by rw [demoState_eq]; simp [lookupK])
    (by rw [demoState_eq]; simp [lookupK])
  rw [h]
  norm_num [min_def]

/-! ## C7: congestion override frame -/

/-- C7: applying a congestion override (`congestion_level` supplied, no
vehicle count) to an existing road sets `current_congestion` to the clamped
level and recomputes `current_travel_time` from it, leaving
`current_vehicles`, `base_travel_time` and `capacity` of that road — and
every other road — unchanged. -/
theorem congestion_override_frame (s : NetState) (k : Key) (c : ℚ)
    (er : EdgeRec) (rd : RoadRec)
    (he : lookupK s.edges k = some er) (hr : lookupK s.road_data k = some rd) :
    update_traffic_on_road s k (some c) none =
      ({ s with
          road_data := setKey s.road_data k
            { rd with current_congestion := clamp01 c }
          edges := setKey s.edges k
            { er with current_travel_time :=
                rd.base_travel_time * (1 + 4 * clamp01 c) } }, true) := by
  rw [update_traffic_eq s k (some c) none er rd he hr]

/-- C7 witness: the override applied to the demo state. -/
theorem congestion_override_frame_witness :
    update_traffic_on_road demoState ("A", "B") (some 2) none =
      ({ demoState with
          road_data := setKey demoState.road_data ("A", "B") ⟨10, 100, 1, 0⟩
          edges := setKey demoState.edges ("A", "B") ⟨10, 50⟩ }, true) := by
  have h := congestion_override_frame demoState ("A", "B") 2 ⟨10, 10⟩
    ⟨10, 100, 0, 0⟩ (by rw [demoState_eq]; simp [lookupK])
    (by rw [demoState_eq]; simp [lookupK])
  rw [h]
  norm_num [clamp01, min_def, max_def]

/-! ## C10: a supplied vehicle count overrides a supplied congestion level -/

/-- C10: when a single `update_traffic_on_road` call on an existing road with
positive capacity supplies both a `congestion_level` and a `vehicle_count`,
the stored congestion is the count-derived `min(1, n / (capacity × 1.5))`;
the explicitly supplied level is overwritten before the travel time is
recomputed, and the stored travel time is computed from the count-derived
value. -/
theorem vehicle_count_overrides_level (s : NetState) (k : Key) (c : ℚ)
    (n : ℤ) (er : EdgeRec) (rd : RoadRec)
    (he : lookupK s.edges k = some er) (hr : lookupK s.road_data k = some rd)
    (hcap : 0 < rd.capacity) :
    (lookupK (update_traffic_on_road s k (some c) (some n)).1.road_data k).map
        RoadRec.current_congestion =
      some (min 1 ((n : ℚ) / ((rd.capacity : ℚ) * (3 / 2)))) ∧
    (lookupK (update_traffic_on_road s k (some c) (some n)).1.edges k).map
        EdgeRec.current_travel_time =
      some (rd.base_travel_time *
        (1 + 4 * min 1 ((n : ℚ) / ((rd.capacity : ℚ) * (3 / 2))))) := by
  rw [update_traffic_eq s k (some c) (some n) er rd he hr]
  simp [lookupK_setKey_self, hcap]

/-- C10 witness: count 60 and level 0.1 supplied together on the demo road
store the count-derived congestion `2/5`, not the clamped level. -/
theorem vehicle_count_overrides_level_witness :
    (lookupK (update_traffic_on_road demoState ("A", "B") (some (1/10))
        (some 60)).1.road_data ("A", "B")).map RoadRec.current_congestion =
      some (2/5) := by
  have h := vehicle_count_overrides_level demoState ("A", "B") (1/10) 60
    ⟨10, 10⟩ ⟨10, 100, 0, 0⟩ (by rw [demoState_eq]; simp [lookupK])
    (by rw [demoState_eq]; simp [lookupK]) (by norm_num)
  rw [h.1]
  norm_num [min_def]

/-! ## C5: load_map performs no validation -/

/-- C5 counterexample.  `badMap`'s only edge references the undeclared node
`"Z"`, yet `load_map` succeeds (returns `True`); the unknown endpoint is
implicitly added to the graph's node set by `add_edge`. -/
theorem load_map_accepts_invalid_map :
    (load_map badMap).2 = true ∧ "Z" ∈ (load_map badMap).1.nodes := by
  decide

/-- C5 amended: `load_map` performs no validation at all and succeeds
(returns `True`) on every input map, including maps with duplicated node ids
(merged into one node) and edges referencing undeclared nodes (implicitly
added to the graph). -/
theorem load_map_never_fails (m : CityMap) : (load_map m).2 = true := rfl

/-! ## C4: occupancy adjustment (spec-modelled `update_road_vehicle_count`) -/

/-- C4 (spec-modelled): an occupancy adjustment on a segment. When the
segment is absent from the topology the call fails (`false` ≈ `UnknownRoad`)
and leaves the state untouched; when the segment exists with a dynamic
record, the new count is clamped to `≥ 0` and the segment's congestion and
travel time are recomputed in the same step from the new count. -/
theorem adjust_occupancy_spec (s : NetState) (k : Key) (delta : ℤ) :
    (lookupK s.edges k = none → update_road_vehicle_count s k delta = (s, false)) ∧
    (∀ er rd, lookupK s.edges k = some er → lookupK s.road_data k = some rd →
      update_road_vehicle_count s k delta =
        ({ s with
            road_data := setKey s.road_data k
              { rd with
                  current_vehicles := max 0 (rd.current_vehicles + delta)
                  current_congestion :=
                    clamp01 (specCongestion (max 0 (rd.current_vehicles + delta))
                      rd.capacity) }
            edges := setKey s.edges k
              { er with current_travel_time :=
                  rd.base_travel_time *
                    satPenalty (clamp01 (specCongestion
                      (max 0 (rd.current_vehicles + delta)) rd.capacity)) } },
          true) ∧
      0 ≤ max 0 (rd.current_vehicles + delta)) := by
  constructor
  · intro hnone
    simp [update_road_vehicle_count, hnone]
  · intro er rd he hr
    refine ⟨?_, le_max_left 0 _⟩
    simp [update_road_vehicle_count, he, hr]

/-- C4 witness: a `-1` adjustment on the freshly loaded demo road (count 0)
clamps the count at 0 and leaves congestion 0 and travel time at base; an
adjustment on the absent road `("B", "A")` fails without modifying state. -/
theorem adjust_occupancy_spec_witness :
    update_road_vehicle_count demoState ("B", "A") 1 = (demoState, false) ∧
    update_road_vehicle_count demoState ("A", "B") (-1) =
      ({ demoState with
          road_data := setKey demoState.road_data ("A", "B") ⟨10, 100, 0, 0⟩
          edges := setKey demoState.edges ("A", "B") ⟨10, 10⟩ }, true) := by
  constructor
  · exact (adjust_occupancy_spec demoState ("B", "A") 1).1
      (by rw [demoState_eq]; simp [lookupK])
  · have h := ((adjust_occupancy_spec demoState ("A", "B") (-1)).2 ⟨10, 10⟩
      ⟨10, 100, 0, 0⟩ (by rw [demoState_eq]; simp [lookupK])
      (by rw [demoState_eq]; simp [lookupK])).1
    rw [h]
    norm_num [clamp01, specCongestion, satPenalty, min_def, max_def]

/-! ## C6: `current_travel_time ≥ base_travel_time` on reachable states -/

/-- The empty initial state of the `graph_manager` globals. -/
def emptyState : NetState := ⟨[], [], []⟩

/-- The state-mutating operations the C6 claim quantifies over. -/
inductive Op where
  | load (m : CityMap)
  | update (k : Key) (cl : Option ℚ) (vc : Option ℤ)

def applyOp (s : NetState) : Op → NetState
  | .load m => (load_map m).1
  | .update k cl vc => (update_traffic_on_road s k cl vc).1

def runOps (ops : List Op) : NetState := ops.foldl applyOp emptyState

/-- Benign inputs: loaded maps carry nonnegative base travel times and
supplied vehicle counts are nonnegative. -/
def opOK : Op → Prop
  | .load m => ∀ e ∈ m.edges, 0 ≤ e.base_travel_time
  | .update _ _ vc => ∀ n, vc = some n → 0 ≤ n

/-- The inductive invariant behind C6: every edge has a nonnegative base and
`current ≥ base`, and every `ROAD_DATA` record has nonnegative congestion and
a base matching its graph edge. -/
def goodState (s : NetState) : Prop :=
  (∀ k er, lookupK s.edges k = some er →
      0 ≤ er.base_travel_time ∧ er.base_travel_time ≤ er.current_travel_time) ∧
  (∀ k rd, lookupK s.road_data k = some rd →
      0 ≤ rd.current_congestion ∧ 0 ≤ rd.base_travel_time ∧
      ∀ er, lookupK s.edges k = some er →
        rd.base_travel_time = er.base_travel_time)

theorem goodState_empty : goodState emptyState := by
  constructor <;> intro k r h <;> simp [emptyState, lookupK] at h

/-- Writing a recomputed record/travel-time pair (the tail of
`update_traffic_on_road`) preserves `goodState` as long as the new congestion
is nonnegative and the record's base matches the edge's. -/
theorem goodState_setBoth (s : NetState) (k : Key) (er : EdgeRec) (rd2 : RoadRec)
    (he : lookupK s.edges k = some er) (hs : goodState s)
    (hc : 0 ≤ rd2.current_congestion)
    (hb : rd2.base_travel_time = er.base_travel_time)
    (hbe : 0 ≤ er.base_travel_time) :
    goodState { s with
      road_data := setKey s.road_data k rd2
      edges := setKey s.edges k
        { er with current_travel_time :=
            rd2.base_travel_time * (1 + 4 * rd2.current_congestion) } } := by
  have h0 : 0 ≤ rd2.base_travel_time := by rw [hb]; exact hbe
  constructor
  · intro k' er' h'
    by_cases hk : k' = k
    · subst hk
      rw [lookupK_setKey_self, Option.some.injEq] at h'
      subst h'
      refine ⟨hbe, ?_⟩
      show er.base_travel_time ≤ rd2.base_travel_time * (1 + 4 * rd2.current_congestion)
      calc er.base_travel_time = rd2.base_travel_time * 1 := by rw [hb, mul_one]
        _ ≤ rd2.base_travel_time * (1 + 4 * rd2.current_congestion) :=
            mul_le_mul_of_nonneg_left (by linarith) h0
    · rw [lookupK_setKey_ne _ _ _ _ hk] at h'
      exact hs.1 k' er' h'
  · intro k' rd' h'
    by_cases hk : k' = k
    · subst hk
      rw [lookupK_setKey_self, Option.some.injEq] at h'
      subst h'
      refine ⟨hc, h0, ?_⟩
      intro er'' h''
      rw [lookupK_setKey_self, Option.some.injEq] at h''
      subst h''
      simpa using hb
    · rw [lookupK_setKey_ne _ _ _ _ hk] at h'
      obtain ⟨h1, h2, h3⟩ := hs.2 k' rd' h'
      exact ⟨h1, h2, fun er'' h'' =>
        h3 er'' (by rwa [lookupK_setKey_ne _ _ _ _ hk] at h'')⟩

theorem goodState_update (s : NetState) (k : Key) (cl : Option ℚ) (vc : Option ℤ)
    (hvc : ∀ n, vc = some n → 0 ≤ n) (hs : goodState s) :
    goodState (update_traffic_on_road s k cl vc).1 := by
  cases he : lookupK s.edges k with
  | none => simpa [update_traffic_on_road, he] using hs
  | some er =>
      have hbe : 0 ≤ er.base_travel_time := (hs.1 k er he).1
      have hrd : 0 ≤ ((lookupK s.road_data k).getD
            (⟨er.base_travel_time, 100, 0, 0⟩ : RoadRec)).current_congestion ∧
          ((lookupK s.road_data k).getD
            (⟨er.base_travel_time, 100, 0, 0⟩ : RoadRec)).base_travel_time =
            er.base_travel_time := by
        cases hr : lookupK s.road_data k with
        | none => simp
        | some rd => exact ⟨(hs.2 k rd hr).1, (hs.2 k rd hr).2.2 er he⟩
      rcases cl with _ | c <;> rcases vc with _ | n <;>
        simp only [update_traffic_on_road, he] <;>
        set rdD : RoadRec := (lookupK s.road_data k).getD
          (⟨er.base_travel_time, 100, 0, 0⟩ : RoadRec) with hrdD
      · exact goodState_setBoth s k er rdD he hs hrd.1 hrd.2 hbe
      · have hn : (0 : ℤ) ≤ n := hvc n rfl
        by_cases hcap : 0 < rdD.capacity
        · simp only [if_pos hcap]
          refine goodState_setBoth s k er
            ⟨rdD.base_travel_time, rdD.capacity,
              min 1 ((n : ℚ) / ((rdD.capacity : ℚ) * (3 / 2))), n⟩ he hs ?_ hrd.2 hbe
          refine le_min (by norm_num) (div_nonneg (by exact_mod_cast hn) ?_)
          have hq : (0 : ℚ) ≤ (rdD.capacity : ℚ) := by exact_mod_cast le_of_lt hcap
          exact mul_nonneg hq (by norm_num)
        · simp only [if_neg hcap]
          refine goodState_setBoth s k er
            ⟨rdD.base_travel_time, rdD.capacity,
              if 0 < n then 1 else 0, n⟩ he hs ?_ hrd.2 hbe
          by_cases hn0 : 0 < n <;> simp [hn0]
      · exact goodState_setBoth s k er
          ⟨rdD.base_travel_time, rdD.capacity, clamp01 c, rdD.current_vehicles⟩
          he hs (le_max_left 0 _) hrd.2 hbe
      · have hn : (0 : ℤ) ≤ n := hvc n rfl
        by_cases hcap : 0 < rdD.capacity
        · simp only [if_pos hcap]
          refine goodState_setBoth s k er
            ⟨rdD.base_travel_time, rdD.capacity,
              min 1 ((n : ℚ) / ((rdD.capacity : ℚ) * (3 / 2))), n⟩ he hs ?_ hrd.2 hbe
          refine le_min (by norm_num) (div_nonneg (by exact_mod_cast hn) ?_)
          have hq : (0 : ℚ) ≤ (rdD.capacity : ℚ) := by exact_mod_cast le_of_lt hcap
          exact mul_nonneg hq (by norm_num)
        · simp only [if_neg hcap]
          refine goodState_setBoth s k er
            ⟨rdD.base_travel_time, rdD.capacity,
              if 0 < n then 1 else 0, n⟩ he hs ?_ hrd.2 hbe
          by_cases hn0 : 0 < n <;> simp [hn0]

theorem goodState_loadEdge (s : NetState) (e : EdgeIn)
    (hs : goodState s) (hb : 0 ≤ e.base_travel_time) :
    goodState (loadEdge s e) := by
  constructor
  · intro k' er' h'
    by_cases hk : k' = (e.source, e.target)
    · subst hk
      rw [show (loadEdge s e).edges = setKey s.edges (e.source, e.target)
          ⟨e.base_travel_time, e.base_travel_time⟩ from rfl,
        lookupK_setKey_self, Option.some.injEq] at h'
      subst h'
      exact ⟨hb, le_refl _⟩
    · rw [show (loadEdge s e).edges = setKey s.edges (e.source, e.target)
          ⟨e.base_travel_time, e.base_travel_time⟩ from rfl,
        lookupK_setKey_ne _ _ _ _ hk] at h'
      exact hs.1 k' er' h'
  · intro k' rd' h'
    by_cases hk : k' = (e.source, e.target)
    · subst hk
      rw [show (loadEdge s e).road_data = setKey s.road_data (e.source, e.target)
          ⟨e.base_travel_time, e.capacity, 0, 0⟩ from rfl,
        lookupK_setKey_self, Option.some.injEq] at h'
      subst h'
      refine ⟨le_refl 0, hb, ?_⟩
      intro er'' h''
      rw [show (loadEdge s e).edges = setKey s.edges (e.source, e.target)
          ⟨e.base_travel_time, e.base_travel_time⟩ from rfl,
        lookupK_setKey_self, Option.some.injEq] at h''
      subst h''
      rfl
    · rw [show (loadEdge s e).road_data = setKey s.road_data (e.source, e.target)
          ⟨e.base_travel_time, e.capacity, 0, 0⟩ from rfl,
        lookupK_setKey_ne _ _ _ _ hk] at h'
      obtain ⟨h1, h2, h3⟩ := hs.2 k' rd' h'
      refine ⟨h1, h2, ?_⟩
      intro er'' h''
      rw [show (loadEdge s e).edges = setKey s.edges (e.source, e.target)
          ⟨e.base_travel_time, e.base_travel_time⟩ from rfl,
        lookupK_setKey_ne _ _ _ _ hk] at h''
      exact h3 er'' h''

theorem goodState_loadFold (es : List EdgeIn) :
    ∀ s : NetState, goodState s → (∀ e ∈ es, 0 ≤ e.base_travel_time) →
      goodState (es.foldl loadEdge s) := by
  induction es with
  | nil => intro s hs _; simpa using hs
  | cons e rest ih =>
      intro s hs hall
      simp only [List.foldl_cons]
      exact ih (loadEdge s e) (goodState_loadEdge s e hs (hall e (by simp)))
        (fun e' he' => hall e' (by simp [he']))

theorem goodState_nodesFold (ns : List NodeIn) :
    ∀ s : NetState, goodState s →
      goodState (ns.foldl (fun s nd => { s with nodes := addNode s.nodes nd.id }) s) := by
  induction ns with
  | nil => intro s hs; simpa using hs
  | cons n rest ih =>
      intro s hs
      simp only [List.foldl_cons]
      exact ih _ hs

theorem goodState_load (m : CityMap) (hm : ∀ e ∈ m.edges, 0 ≤ e.base_travel_time) :
    goodState (load_map m).1 := by
  simp only [load_map]
  exact goodState_loadFold m.edges _
    (goodState_nodesFold m.nodes emptyState goodState_empty) hm

theorem goodState_runOps (ops : List Op) (hok : ∀ op ∈ ops, opOK op) :
    goodState (runOps ops) := by
  rw [runOps]
  have aux : ∀ l : List Op, ∀ s : NetState, goodState s →
      (∀ op ∈ l, opOK op) → goodState (l.foldl applyOp s) := by
    intro l
    induction l with
    | nil => intro s hs _; simpa using hs
    | cons op rest ih =>
        intro s hs hall
        simp only [List.foldl_cons]
        refine ih _ ?_ (fun op' h' => hall op' (by simp [h']))
        cases op with
        | load m => exact goodState_load m (hall (.load m) (by simp))
        | update k cl vc =>
            exact goodState_update s k cl vc
              (fun n hn => (hall (.update k cl vc) (by simp)) n hn) hs
  exact aux ops emptyState goodState_empty hok

/-- C6 counterexample.  The claim says `current_travel_time ≥
base_travel_time` in every state reachable by `load_map` and traffic
updates.  After loading the demo map and sending a traffic update with
`vehicle_count = -150` (the API model allows any integer), road `A→B`
carries `current_congestion = -1` and `current_travel_time = -30 < 10 =
base_travel_time`. -/
theorem travel_time_below_base_reachable :
    lookupK (runOps [Op.load demoMap,
        Op.update ("A", "B") none (some (-150))]).edges ("A", "B") =
      some ⟨10, -30⟩ ∧ ¬ ((10 : ℚ) ≤ -30) := by
  refine ⟨?_, by norm_num⟩
  have h1 : runOps [Op.load demoMap, Op.update ("A", "B") none (some (-150))] =
      (update_traffic_on_road demoState ("A", "B") none (some (-150))).1 := rfl
  rw [h1, update_traffic_eq demoState ("A", "B") none (some (-150)) ⟨10, 10⟩
    ⟨10, 100, 0, 0⟩ (by rw [demoState_eq]; simp [lookupK])
    (by rw [demoState_eq]; simp [lookupK])]
  simp only [lookupK_setKey_self]
  norm_num [min_def]

/-- C6 amended: in every state reachable from the initial empty state by
`load_map` calls whose maps carry nonnegative base travel times and
`update_traffic_on_road` calls whose supplied vehicle counts are
nonnegative, every edge satisfies `current_travel_time ≥ base_travel_time`.
(The unrestricted claim fails: a negative supplied vehicle count drives the
congestion, and hence the penalty factor, negative.) -/
theorem reachable_travel_time_ge_base (ops : List Op)
    (hok : ∀ op ∈ ops, opOK op) (k : Key) (er : EdgeRec)
    (h : lookupK (runOps ops).edges k = some er) :
    er.base_travel_time ≤ er.current_travel_time :=
  ((goodState_runOps ops hok).1 k er h).2

/-- C6 witness: after loading the demo map and overriding congestion to 3/4,
the stored travel time 40 is above the base 10. -/
theorem reachable_travel_time_ge_base_witness : (10 : ℚ) ≤ 40 := by
  have hlook : lookupK (runOps [Op.load demoMap,
      Op.update ("A", "B") (some (3/4)) none]).edges ("A", "B") =
      some ⟨10, 40⟩ := by
    have h1 : runOps [Op.load demoMap, Op.update ("A", "B") (some (3/4)) none] =
        (update_traffic_on_road demoState ("A", "B") (some (3/4)) none).1 := rfl
    rw [h1, update_traffic_eq demoState ("A", "B") (some (3/4)) none ⟨10, 10⟩
      ⟨10, 100, 0, 0⟩ (by rw [demoState_eq]; simp [lookupK])
      (by rw [demoState_eq]; simp [lookupK])]
    simp only [lookupK_setKey_self]
    norm_num [clamp01, min_def, max_def]
  have h := reachable_travel_time_ge_base
    [Op.load demoMap, Op.update ("A", "B") (some (3/4)) none]
    (by
      intro op hop
      simp only [List.mem_cons, List.not_mem_nil, or_false] at hop
      rcases hop with rfl | rfl
      · intro e he
        simp only [demoMap, List.mem_cons, List.not_mem_nil, or_false] at he
        subst he
        norm_num
      · intro n hn
        simp at hn)
    ("A", "B") ⟨10, 40⟩ hlook
  simpa using h

/-! ## C8: routing_service.find_fastest_path -/

/-- Adjacency read off the graph's edge list: successors of `u` with their
`current_travel_time` weights, in insertion order (networkx adjacency). -/
def neighbors : List (Key × EdgeRec) → String → List (String × ℚ)
  | [], _ => []
  | (k, er) :: rest, u =>
      if k.1 = u then (k.2, er.current_travel_time) :: neighbors rest u
      else neighbors rest u

/-- Pop the (leftmost) minimum-cost frontier entry — the heap pop inside
networkx's Dijkstra.  Entries are `(cost, node, reversed path)`. -/
def extractMin : List (ℚ × String × List String) →
    Option ((ℚ × String × List String) × List (ℚ × String × List String))
  | [] => none
  | x :: xs =>
      match extractMin xs with
      | none => some (x, [])
      | some (m, rest) => if x.1 ≤ m.1 then some (x, xs) else some (m, x :: rest)

/-- Fuel-bounded Dijkstra main loop (shallow embedding of the
`networkx.dijkstra_path` / `dijkstra_path_length` pair used by
`routing_service.find_fastest_path`): pop the cheapest frontier entry, skip
already-visited nodes, stop at the target, otherwise relax the popped node's
out-edges. -/
def dijkstraLoop (edges : List (Key × EdgeRec)) (target : String) :
    ℕ → List String → List (ℚ × String × List String) → Option (List String × ℚ)
  | 0, _, _ => none
  | fuel + 1, visited, frontier =>
      match extractMin frontier with
      | none => none
      | some ((c, u, revp), rest) =>
          if u ∈ visited then dijkstraLoop edges target fuel visited rest
          else if u = target then some (revp.reverse, c)
          else dijkstraLoop edges target fuel (u :: visited)
            (rest ++ (neighbors edges u).map fun p => (c + p.2, p.1, p.1 :: revp))

/-- Dijkstra from `a` towards `b` over the current edge weights, with fuel
amply exceeding the number of heap pops possible. -/
def dijkstra (s : NetState) (a b : String) : Option (List String × ℚ) :=
  dijkstraLoop s.edges b ((s.edges.length + 1) * (s.nodes.length + 1) + 1)
    [] [(0, a, [a])]

/-- `routing_service.find_fastest_path`: `None` when either endpoint is
missing from the graph or no path exists, otherwise the node sequence and its
total `current_travel_time` cost. -/
def find_fastest_path (s : NetState) (a b : String) : Option (List String × ℚ) :=
  if a ∈ s.nodes ∧ b ∈ s.nodes then dijkstra s a b else none

theorem dijkstraLoop_single (a b : String) (er : EdgeRec) (hab : a ≠ b)
    (fuel : ℕ) :
    dijkstraLoop [((a, b), er)] b (fuel + 2) [] [(0, a, [a])] =
      some ([a, b], er.current_travel_time) := by
  simp [dijkstraLoop, extractMin, neighbors, hab, Ne.symm hab]

/-- C8: on a graph whose edge list consists of the single directed edge
`a→b` carrying `current_travel_time` weight `w`, with distinct nodes `a` and
`b` both present, `find_fastest_path a b` succeeds and returns exactly the
path `[a, b]` with total cost `w`. -/
theorem find_fastest_path_single_edge (nodes : List String)
    (rd : List (Key × RoadRec)) (a b : String) (er : EdgeRec)
    (ha : a ∈ nodes) (hb : b ∈ nodes) (hab : a ≠ b) :
    find_fastest_path ⟨nodes, [((a, b), er)], rd⟩ a b =
      some ([a, b], er.current_travel_time) := by
  have h2 : (([((a, b), er)] : List (Key × EdgeRec)).length + 1) *
      (nodes.length + 1) + 1 = 2 * nodes.length + 1 + 2 := by
    simp only [List.length_singleton]
    ring
  unfold find_fastest_path dijkstra
  rw [if_pos (show a ∈ (⟨nodes, [((a, b), er)], rd⟩ : NetState).nodes ∧
    b ∈ (⟨nodes, [((a, b), er)], rd⟩ : NetState).nodes from ⟨ha, hb⟩)]
  show dijkstraLoop [((a, b), er)] b
    ((([((a, b), er)] : List (Key × EdgeRec)).length + 1) * (nodes.length + 1) + 1)
    [] [(0, a, [a])] = some ([a, b], er.current_travel_time)
  rw [h2]
  exact dijkstraLoop_single a b er hab _

/-- C8 witness: a two-node graph with the single edge `A→B` of weight 7. -/
theorem find_fastest_path_single_edge_witness :
    find_fastest_path ⟨["A", "B"], [(("A", "B"), ⟨10, 7⟩)], []⟩ "A" "B" =
      some (["A", "B"], 7) :=
  find_fastest_path_single_edge ["A", "B"] [] "A" "B" ⟨10, 7⟩
    (by simp) (by simp) (by decide)

/-! ## C9: traffic_light_service.calculate_adaptive_timings -/

def MIN_GREEN_TIME : ℤ := 10

def MAX_GREEN_TIME : ℤ := 60

def DEFAULT_CYCLE_TIME : ℤ := 90

/-- In-edges of intersection `x` read off the edge list (insertion order),
as in `CITY_GRAPH.in_edges`. -/
def in_edges : List (Key × EdgeRec) → String → List Key
  | [], _ => []
  | (k, _) :: rest, x => if k.2 = x then k :: in_edges rest x else in_edges rest x

/-- `graph_manager.get_roads_entering_intersection`. -/
def get_roads_entering_intersection (s : NetState) (x : String) : List Key :=
  if x ∈ s.nodes then in_edges s.edges x else []

/-- Python `int()` on a real value: truncation toward zero.  (The source
computes the proportion in binary floating point; modelled exactly on `ℚ`.) -/
def truncQ (q : ℚ) : ℤ := if 0 ≤ q then ⌊q⌋ else ⌈q⌉

/-- Demand score of one incoming road: its `current_vehicles` count, `0`
when the road has no `ROAD_DATA` record. -/
def demandScore (s : NetState) (k : Key) : ℤ :=
  match lookupK s.road_data k with
  | some rdr => rdr.current_vehicles
  | none => 0

/-- `traffic_light_service.calculate_adaptive_timings` (lines 37–95): maps
each incoming road of the intersection to its allocated green seconds. -/
def calculate_adaptive_timings (s : NetState) (x : String) : List (Key × ℤ) :=
  if x ∈ s.nodes then
    let incoming := get_roads_entering_intersection s x
    if incoming = [] then []
    else
      let demand := incoming.map fun k => (k, demandScore s k)
      let total : ℤ := (demand.map Prod.snd).sum
      if total = 0 then
        let equal_time := max MIN_GREEN_TIME (DEFAULT_CYCLE_TIME / (incoming.length : ℤ))
        incoming.map fun k => (k, min equal_time MAX_GREEN_TIME)
      else
        demand.map fun p =>
          (p.1, max MIN_GREEN_TIME
            (min (truncQ ((p.2 : ℚ) / (total : ℚ) * (DEFAULT_CYCLE_TIME : ℚ)))
              MAX_GREEN_TIME))
  else []

/-- An intersection `X` fed by roads `A→X` (10 vehicles) and `B→X`
(30 vehicles), the spec §8 signal-allocation scenario. -/
def lightState : NetState :=
  ⟨["A", "B", "X"],
   [(("A", "X"), ⟨10, 10⟩), (("B", "X"), ⟨10, 10⟩)],
   [(("A", "X"), ⟨10, 100, 0, 10⟩), (("B", "X"), ⟨10, 100, 0, 30⟩)]⟩

theorem lightState_timings_eval :
    calculate_adaptive_timings lightState "X" =
      [(("A", "X"), 22), (("B", "X"), 60)] := by
  have h1 : truncQ ((((10 : ℤ) : ℚ)) / (((40 : ℤ) : ℚ)) * ((90 : ℤ) : ℚ)) = 22 := by
    norm_num [truncQ]
  have h2 : truncQ ((((30 : ℤ) : ℚ)) / (((40 : ℤ) : ℚ)) * ((90 : ℤ) : ℚ)) = 67 := by
    norm_num [truncQ]
  have hAB : ("A" : String) ≠ "B" := by decide
  have hBA : ("B" : String) ≠ "A" := by decide
  have hXA : ("X" : String) ≠ "A" := by decide
  have hXB : ("X" : String) ≠ "B" := by decide
  norm_num [calculate_adaptive_timings, lightState, get_roads_entering_intersection,
    in_edges, demandScore, lookupK, MIN_GREEN_TIME, MAX_GREEN_TIME,
    DEFAULT_CYCLE_TIME, h1, h2, min_def, max_def, truncQ, hAB, hBA, hXA, hXB]
  intro h
  simp at h

/-- C9 counterexample.  On the spec's own scenario (occupancies 10 and 30
over a 90-second cycle), road `A→X` receives `int(90 × 10/40) = 22` green
seconds, not the claimed exact `90 × (10/40) = 22.5` clamped into
`[10, 60]`: the code truncates the proportional share to an integer before
clamping. -/
theorem green_time_truncated :
    lookupK (calculate_adaptive_timings lightState "X") ("A", "X") = some 22 ∧
    (22 : ℚ) ≠ max 10 (min ((90 : ℚ) * (10 / 40)) 60) := by
  constructor
  · rw [lightState_timings_eval]
    simp [lookupK]
  · norm_num [min_def, max_def]

/-- C9 amended: with at least one incoming road, each incoming road receives
— in the zero-total-demand case — the integer equal share
`cycle_budget // n` clamped to `[MinGreen, MaxGreen]`, and otherwise the
*integer truncation* of `cycle_budget × road_score/total_score` clamped to
`[MinGreen, MaxGreen]`; in particular every returned green time lies within
`[MinGreen, MaxGreen]`. -/
theorem adaptive_timings_formula (s : NetState) (x : String)
    (hx : x ∈ s.nodes) (hne : in_edges s.edges x ≠ []) :
    (∀ p ∈ calculate_adaptive_timings s x,
        MIN_GREEN_TIME ≤ p.2 ∧ p.2 ≤ MAX_GREEN_TIME) ∧
    ((((in_edges s.edges x).map fun k => demandScore s k).sum = 0 →
        calculate_adaptive_timings s x = (in_edges s.edges x).map fun k =>
          (k, min (max MIN_GREEN_TIME
            (DEFAULT_CYCLE_TIME / ((in_edges s.edges x).length : ℤ)))
            MAX_GREEN_TIME)) ∧
      (((in_edges s.edges x).map fun k => demandScore s k).sum ≠ 0 →
        calculate_adaptive_timings s x = (in_edges s.edges x).map fun k =>
          (k, max MIN_GREEN_TIME
            (min (truncQ ((demandScore s k : ℚ) /
                ((((in_edges s.edges x).map fun k => demandScore s k).sum : ℚ)) *
                (DEFAULT_CYCLE_TIME : ℚ)))
              MAX_GREEN_TIME)))) := by
  have hinc : get_roads_entering_intersection s x = in_edges s.edges x := by
    rw [get_roads_entering_intersection, if_pos hx]
  refine ⟨?_, ?_, ?_⟩
  · intro p hp
    rw [calculate_adaptive_timings, if_pos hx] at hp
    simp only [hinc, if_neg hne, List.map_map, Function.comp_def] at hp
    by_cases h0 : ((in_edges s.edges x).map fun k => demandScore s k).sum = 0
    · rw [if_pos h0] at hp
      obtain ⟨k, _, rfl⟩ := List.mem_map.1 hp
      constructor
      · exact le_min (le_max_left _ _) (by norm_num [MIN_GREEN_TIME, MAX_GREEN_TIME])
      · exact min_le_right _ _
    · rw [if_neg h0] at hp
      obtain ⟨q, _, rfl⟩ := List.mem_map.1 hp
      constructor
      · exact le_max_left _ _
      · exact max_le (by norm_num [MIN_GREEN_TIME, MAX_GREEN_TIME]) (min_le_right _ _)
  · intro h0
    rw [calculate_adaptive_timings, if_pos hx]
    simp only [hinc, if_neg hne, List.map_map, Function.comp_def, if_pos h0]
  · intro h0
    rw [calculate_adaptive_timings, if_pos hx]
    simp only [hinc, if_neg hne, List.map_map, Function.comp_def, if_neg h0]

/-- C9 witness: the amended theorem instantiated on the 10/30-occupancy
intersection; road `A→X`'s allocation `22` lies within `[10, 60]`. -/
theorem adaptive_timings_formula_witness :
    (10 : ℤ) ≤ 22 ∧ (22 : ℤ) ≤ 60 := by
  have h := (adaptive_timings_formula lightState "X" (by decide) (by decide)).1
    (("A", "X"), 22)
  rw [lightState_timings_eval] at h
  exact h (List.mem_cons_self _ _)

/-! ## C3: simulation_manager.update_vehicle_positions -/

/-- `models.VehicleStateEnum`. -/
inductive VState where
  | idle
  | onRoute
  | arrived
deriving DecidableEq, Repr

/-- `models.Vehicle` (the fields touched by `update_vehicle_positions`;
`start_node_id` and `path_cost` are never read there and are omitted). -/
structure Vehicle where
  id : String
  destination_node_id : String
  current_node_id : String
  current_road_segment : Option Key
  time_on_current_segment : ℚ
  current_path_index : ℕ
  state : VState
  current_path : Option (List String)
deriving DecidableEq, Repr

/-- The per-segment travel time the simulator reads back from `ROAD_DATA`
(`simulation_manager` lines 98–108): base time times the saturating penalty,
or the large default `1000` when the record is missing. -/
def requiredTime (s : NetState) (k : Key) : ℚ :=
  match lookupK s.road_data k with
  | some rdr => rdr.base_travel_time * satPenalty rdr.current_congestion
  | none => 1000

/-- Line 83–84: decrement the old segment's occupancy if one was claimed. -/
def leaveIfClaimed (s : NetState) : Option Key → NetState
  | some old => (update_road_vehicle_count s old (-1)).1
  | none => s

/-- Lines 82–89: when the vehicle's recorded segment differs from the active
one, leave the old segment (decrement), claim the new one (increment) and
set `current_node_id` to the segment's source. -/
def moveToSegment (s : NetState) (v : Vehicle) (k : Key) (src : String) :
    NetState × Vehicle :=
  if v.current_road_segment = some k then (s, v)
  else
    ((update_road_vehicle_count (leaveIfClaimed s v.current_road_segment) k 1).1,
     { v with current_road_segment := some k, current_node_id := src })

/-- Lines 116–139: the vehicle finished the active segment — advance the
path index, move to the target node, reset the timer, release the segment,
and arrive if the path is exhausted. -/
def completeSegment (s : NetState) (v : Vehicle) (k : Key) (tgt : String)
    (pathLen : ℕ) (dest : String) : NetState × Vehicle :=
  let s1 := (update_road_vehicle_count s k (-1)).1
  let v1 := { v with
    current_path_index := v.current_path_index + 1
    current_node_id := tgt
    time_on_current_segment := 0
    current_road_segment := none }
  if pathLen ≤ v.current_path_index + 1 + 1 then
    (s1, { v1 with state := VState.arrived, current_node_id := dest })
  else (s1, v1)

/-- Lines 142–144: release a still-claimed segment and clear the claim. -/
def releaseIfClaimed (s : NetState) (v : Vehicle) : NetState × Vehicle :=
  match v.current_road_segment with
  | some old => ((update_road_vehicle_count s old (-1)).1,
      { v with current_road_segment := none })
  | none => (s, v)

/-- Lines 140–144: the path index is already at (or past) the last node —
mark the vehicle arrived and release any still-claimed segment. -/
def finishAtEnd (s : NetState) (v : Vehicle) : NetState × Vehicle :=
  releaseIfClaimed s { v with state := VState.arrived }

/-- Lines 73–139 for one `ON_ROUTE` vehicle with a nonempty path. -/
def stepOnRoute (s : NetState) (v : Vehicle) (path : List String) (dt : ℚ) :
    NetState × Vehicle :=
  let v1 := { v with time_on_current_segment := v.time_on_current_segment + dt }
  if v1.current_path_index + 1 < path.length then
    let src := path.getD v1.current_path_index ""
    let tgt := path.getD (v1.current_path_index + 1) ""
    let p := moveToSegment s v1 (src, tgt) src
    if requiredTime p.1 (src, tgt) ≤ p.2.time_on_current_segment then
      completeSegment p.1 p.2 (src, tgt) tgt path.length v.destination_node_id
    else p
  else finishAtEnd s v1

/-- The whole per-vehicle body of `update_vehicle_positions` (the Python
`continue` guard plus `stepOnRoute`).  A vehicle that is not `ON_ROUTE`, or
whose `current_path` is `None` or empty, is skipped. -/
def stepVehicle (s : NetState) (v : Vehicle) (dt : ℚ) : NetState × Vehicle :=
  match v.state, v.current_path with
  | VState.onRoute, some path =>
      if path = [] then (s, v) else stepOnRoute s v path dt
  | _, _ => (s, v)

/-- `update_vehicle_positions`: one full pass over the vehicle population in
table order, threading the road state through. -/
def update_vehicle_positions (s : NetState) (vs : List Vehicle) (dt : ℚ) :
    NetState × List Vehicle :=
  match vs with
  | [] => (s, [])
  | v :: rest =>
      let p := stepVehicle s v dt
      let q := update_vehicle_positions p.1 rest dt
      (q.1, p.2 :: q.2)

/-- Number of vehicles currently attributed to segment `k`. -/
def segCount (vs : List Vehicle) (k : Key) : ℕ :=
  vs.countP fun v => decide (v.current_road_segment = some k)

/-- The C3 invariant: every recorded segment's `current_vehicles` equals the
number of vehicles whose `current_road_segment` is that segment. -/
def occupancyInvariant (s : NetState) (vs : List Vehicle) : Prop :=
  ∀ k rdr, lookupK s.road_data k = some rdr →
    rdr.current_vehicles = (segCount vs k : ℤ)

/-- Topology hygiene: every `ROAD_DATA` record belongs to a graph edge
(holds in every state `load_map` produces). -/
def roadsInTopology (s : NetState) : Prop :=
  ∀ k, (lookupK s.road_data k).isSome → (lookupK s.edges k).isSome

/-- Vehicle hygiene: the claimed segment (if any) and every consecutive pair
of the vehicle's path have `ROAD_DATA` records (paths are produced by the
router over the loaded graph). -/
def wfVehicle (s : NetState) (v : Vehicle) : Prop :=
  (∀ k, v.current_road_segment = some k → (lookupK s.road_data k).isSome) ∧
  (∀ p, v.current_path = some p → ∀ i, i + 1 < p.length →
    (lookupK s.road_data (p.getD i "", p.getD (i + 1) "")).isSome)

theorem segCount_cons (v : Vehicle) (vs : List Vehicle) (k : Key) :
    segCount (v :: vs) k =
      segCount vs k + (if v.current_road_segment = some k then 1 else 0) := by
  simp [segCount, List.countP_cons]

theorem segCount_append (a b : List Vehicle) (k : Key) :
    segCount (a ++ b) k = segCount a k + segCount b k := by
  simp [segCount, List.countP_append]

theorem occupancyInvariant_middle (s : NetState) (done rest : List Vehicle)
    (v : Vehicle) :
    occupancyInvariant s (done ++ v :: rest) ↔
      occupancyInvariant s (v :: (done ++ rest)) := by
  have hsc : ∀ k, segCount (done ++ v :: rest) k = segCount (v :: (done ++ rest)) k := by
    intro k
    simp [segCount_append, segCount_cons]
    ring
  constructor <;> intro h k rdr hk <;> rw [h k rdr hk, hsc k]

theorem occupancyInvariant_same_claim (s : NetState) (v v' : Vehicle)
    (o : List Vehicle) (h : v'.current_road_segment = v.current_road_segment)
    (hinv : occupancyInvariant s (v :: o)) :
    occupancyInvariant s (v' :: o) := by
  intro k rdr hk
  rw [hinv k rdr hk, segCount_cons, segCount_cons, h]

/-- Both components of `update_road_vehicle_count` on a road that has a
dynamic record: the new record and travel time written at `k`. -/
theorem urvc_road_data_self (s : NetState) (k : Key) (delta : ℤ)
    (er : EdgeRec) (rdr : RoadRec)
    (he : lookupK s.edges k = some er) (hr : lookupK s.road_data k = some rdr) :
    (lookupK (update_road_vehicle_count s k delta).1.road_data k).map
      RoadRec.current_vehicles = some (max 0 (rdr.current_vehicles + delta)) := by
  simp [update_road_vehicle_count, he, hr, lookupK_setKey_self]

theorem urvc_road_data_other (s : NetState) (k : Key) (delta : ℤ) (k' : Key)
    (hk : k' ≠ k) :
    lookupK (update_road_vehicle_count s k delta).1.road_data k' =
      lookupK s.road_data k' := by
  cases he : lookupK s.edges k with
  | none => simp [update_road_vehicle_count, he]
  | some er => simp [update_road_vehicle_count, he, lookupK_setKey_ne _ _ _ _ hk]

/-- Key preservation for both maps. -/
def keysEq (s s' : NetState) : Prop :=
  (∀ k, (lookupK s'.road_data k).isSome = (lookupK s.road_data k).isSome) ∧
  (∀ k, (lookupK s'.edges k).isSome = (lookupK s.edges k).isSome)

theorem keysEq_refl (s : NetState) : keysEq s s := ⟨fun _ => rfl, fun _ => rfl⟩

theorem keysEq_trans {s t u : NetState} (h1 : keysEq s t) (h2 : keysEq t u) :
    keysEq s u :=
  ⟨fun k => (h2.1 k).trans (h1.1 k), fun k => (h2.2 k).trans (h1.2 k)⟩

theorem urvc_keysEq (s : NetState) (k : Key) (delta : ℤ)
    (hr : (lookupK s.road_data k).isSome) :
    keysEq s (update_road_vehicle_count s k delta).1 := by
  cases he : lookupK s.edges k with
  | none => simp [update_road_vehicle_count, he, keysEq_refl]
  | some er =>
      obtain ⟨rdr, hrd⟩ := Option.isSome_iff_exists.1 hr
      constructor
      · intro k'
        simp only [update_road_vehicle_count, he, hrd, Option.getD_some]
        exact lookupK_setKey_isSome s.road_data k _ hr k'
      · intro k'
        simp only [update_road_vehicle_count, he, hrd, Option.getD_some]
        exact lookupK_setKey_isSome s.edges k _ (by simp [he]) k'

theorem wfVehicle_keysEq {s s' : NetState} (h : keysEq s s') (v : Vehicle)
    (hv : wfVehicle s v) : wfVehicle s' v := by
  constructor
  · intro k hk
    rw [h.1 k]
    exact hv.1 k hk
  · intro p hp i hi
    rw [h.1 _]
    exact hv.2 p hp i hi

theorem roadsInTopology_keysEq {s s' : NetState} (h : keysEq s s')
    (ht : roadsInTopology s) : roadsInTopology s' := by
  intro k hk
  rw [h.2 k]
  exact ht k (by rwa [h.1 k] at hk)

/-- Atomic move: a vehicle that claimed segment `j` releases it (occupancy
`-1`) and its claim is cleared; the invariant survives. -/
theorem inv_unclaim_dec (s : NetState) (v : Vehicle) (o : List Vehicle)
    (j : Key) (hclaim : v.current_road_segment = some j)
    (hj : (lookupK s.road_data j).isSome)
    (hje : (lookupK s.edges j).isSome)
    (hinv : occupancyInvariant s (v :: o))
    (v' : Vehicle) (hv' : v'.current_road_segment = none) :
    occupancyInvariant (update_road_vehicle_count s j (-1)).1 (v' :: o) := by
  obtain ⟨rdj, hrj⟩ := Option.isSome_iff_exists.1 hj
  obtain ⟨ej, hej⟩ := Option.isSome_iff_exists.1 hje
  intro k rdr hk
  by_cases hkj : k = j
  · subst hkj
    have hcount := hinv k rdj hrj
    rw [segCount_cons, hclaim, if_pos rfl] at hcount
    have hself := urvc_road_data_self s k (-1) ej rdj hej hrj
    rw [hk] at hself
    simp only [Option.map_some', Option.some.injEq] at hself
    rw [hself, segCount_cons, hv', if_neg (by simp), hcount]
    push_cast
    omega
  · rw [urvc_road_data_other s j (-1) k hkj] at hk
    have hcount := hinv k rdr hk
    rw [segCount_cons, hclaim, if_neg (by simp [Ne.symm hkj]), add_zero] at hcount
    rw [hcount, segCount_cons, hv', if_neg (by simp), add_zero]

/-- Atomic move: a vehicle with no claim takes segment `k` (occupancy `+1`)
and records the claim; the invariant survives. -/
theorem inv_claim_inc (s : NetState) (v : Vehicle) (o : List Vehicle)
    (k : Key) (hclaim : v.current_road_segment = none)
    (hk : (lookupK s.road_data k).isSome)
    (hke : (lookupK s.edges k).isSome)
    (hinv : occupancyInvariant s (v :: o))
    (v' : Vehicle) (hv' : v'.current_road_segment = some k) :
    occupancyInvariant (update_road_vehicle_count s k 1).1 (v' :: o) := by
  obtain ⟨rdk, hrk⟩ := Option.isSome_iff_exists.1 hk
  obtain ⟨ek, hek⟩ := Option.isSome_iff_exists.1 hke
  intro k' rdr hk'
  by_cases hkk : k' = k
  · subst hkk
    have hcount := hinv k' rdk hrk
    rw [segCount_cons, hclaim, if_neg (by simp), add_zero] at hcount
    have hself := urvc_road_data_self s k' 1 ek rdk hek hrk
    rw [hk'] at hself
    simp only [Option.map_some', Option.some.injEq] at hself
    rw [hself, segCount_cons, hv', if_pos rfl, hcount]
    push_cast
    omega
  · rw [urvc_road_data_other s k 1 k' hkk] at hk'
    have hcount := hinv k' rdr hk'
    rw [segCount_cons, hclaim, if_neg (by simp), add_zero] at hcount
    rw [hcount, segCount_cons, hv', if_neg (by simp [Ne.symm hkk]), add_zero]

/-- Everything one vehicle's step must guarantee: invariant restored with the
stepped vehicle in place, keys preserved, path untouched, and any claimed
segment recorded. -/
abbrev stepOK (s : NetState) (v : Vehicle) (o : List Vehicle)
    (r : NetState × Vehicle) : Prop :=
  occupancyInvariant r.1 (r.2 :: o) ∧ keysEq s r.1 ∧
  r.2.current_path = v.current_path ∧
  (∀ j, r.2.current_road_segment = some j → (lookupK r.1.road_data j).isSome)

theorem moveToSegment_spec (s : NetState) (v : Vehicle) (k : Key) (src : String)
    (o : List Vehicle)
    (hv : ∀ j, v.current_road_segment = some j → (lookupK s.road_data j).isSome)
    (htopo : roadsInTopology s)
    (hk : (lookupK s.road_data k).isSome)
    (hinv : occupancyInvariant s (v :: o)) :
    stepOK s v o (moveToSegment s v k src) ∧
    (moveToSegment s v k src).2.current_road_segment = some k := by
  by_cases hsame : v.current_road_segment = some k
  · have hmv : moveToSegment s v k src = (s, v) := by
      rw [moveToSegment, if_pos hsame]
    rw [hmv]
    exact ⟨⟨hinv, keysEq_refl s, rfl, hv⟩, hsame⟩
  · have hmv : moveToSegment s v k src =
        ((update_road_vehicle_count (leaveIfClaimed s v.current_road_segment) k 1).1,
         { v with current_road_segment := some k, current_node_id := src }) := by
      rw [moveToSegment, if_neg hsame]
    cases hold : v.current_road_segment with
    | none =>
        have hlv : leaveIfClaimed s v.current_road_segment = s := by
          rw [hold]
          rfl
        rw [hmv, hlv]
        have hke : (lookupK s.edges k).isSome := htopo k hk
        have hkeys := urvc_keysEq s k 1 hk
        refine ⟨⟨?_, hkeys, rfl, ?_⟩, rfl⟩
        · exact inv_claim_inc s v o k hold hk hke hinv _ rfl
        · intro j hj
          cases hj
          rw [hkeys.1 k]
          exact hk
    | some old =>
        have hlv : leaveIfClaimed s v.current_road_segment =
            (update_road_vehicle_count s old (-1)).1 := by
          rw [hold]
          rfl
        rw [hmv, hlv]
        have hold_rd : (lookupK s.road_data old).isSome := hv old hold
        have hold_e : (lookupK s.edges old).isSome := htopo old hold_rd
        have hkeys1 := urvc_keysEq s old (-1) hold_rd
        have hk1 : (lookupK (update_road_vehicle_count s old (-1)).1.road_data k).isSome := by
          rw [hkeys1.1 k]; exact hk
        have hke1 : (lookupK (update_road_vehicle_count s old (-1)).1.edges k).isSome := by
          rw [hkeys1.2 k]; exact htopo k hk
        have hkeys2 := urvc_keysEq (update_road_vehicle_count s old (-1)).1 k 1 hk1
        have hinv1 : occupancyInvariant (update_road_vehicle_count s old (-1)).1
            ({ v with current_road_segment := none } :: o) :=
          inv_unclaim_dec s v o old hold hold_rd hold_e hinv _ rfl
        refine ⟨⟨?_, keysEq_trans hkeys1 hkeys2, rfl, ?_⟩, rfl⟩
        · exact inv_claim_inc _ { v with current_road_segment := none } o k rfl
            hk1 hke1 hinv1 _ rfl
        · intro j hj
          cases hj
          rw [hkeys2.1 k, hkeys1.1 k]
          exact hk

theorem completeSegment_spec (s : NetState) (v : Vehicle) (k : Key)
    (tgt : String) (pathLen : ℕ) (dest : String) (o : List Vehicle)
    (hclaim : v.current_road_segment = some k)
    (hk : (lookupK s.road_data k).isSome)
    (htopo : roadsInTopology s)
    (hinv : occupancyInvariant s (v :: o)) :
    stepOK s v o (completeSegment s v k tgt pathLen dest) := by
  unfold completeSegment
  have hke := htopo k hk
  have hkeys := urvc_keysEq s k (-1) hk
  by_cases hlen : pathLen ≤ v.current_path_index + 1 + 1
  · rw [if_pos hlen]
    refine ⟨?_, hkeys, rfl, ?_⟩
    · exact inv_unclaim_dec s v o k hclaim hk hke hinv _ rfl
    · intro j hj
      simp at hj
  · rw [if_neg hlen]
    refine ⟨?_, hkeys, rfl, ?_⟩
    · exact inv_unclaim_dec s v o k hclaim hk hke hinv _ rfl
    · intro j hj
      simp at hj

theorem releaseIfClaimed_spec (s : NetState) (v : Vehicle) (o : List Vehicle)
    (hv : ∀ j, v.current_road_segment = some j → (lookupK s.road_data j).isSome)
    (htopo : roadsInTopology s)
    (hinv : occupancyInvariant s (v :: o)) :
    stepOK s v o (releaseIfClaimed s v) := by
  cases hold : v.current_road_segment with
  | none =>
      have hre : releaseIfClaimed s v = (s, v) := by
        simp only [releaseIfClaimed, hold]
      rw [hre]
      exact ⟨hinv, keysEq_refl s, rfl, hv⟩
  | some old =>
      have hrd := hv old hold
      have he := htopo old hrd
      have hre : releaseIfClaimed s v =
          ((update_road_vehicle_count s old (-1)).1,
           { v with current_road_segment := none }) := by
        simp only [releaseIfClaimed, hold]
      rw [hre]
      refine ⟨?_, urvc_keysEq s old (-1) hrd, rfl, ?_⟩
      · exact inv_unclaim_dec s v o old hold hrd he hinv _ rfl
      · intro j hj
        simp at hj

theorem finishAtEnd_spec (s : NetState) (v : Vehicle) (o : List Vehicle)
    (hv : ∀ j, v.current_road_segment = some j → (lookupK s.road_data j).isSome)
    (htopo : roadsInTopology s)
    (hinv : occupancyInvariant s (v :: o)) :
    stepOK s v o (finishAtEnd s v) := by
  have h := releaseIfClaimed_spec s { v with state := VState.arrived } o hv htopo
    (occupancyInvariant_same_claim s v _ o rfl hinv)
  exact h

theorem stepOnRoute_spec (s : NetState) (v : Vehicle) (path : List String)
    (dt : ℚ) (o : List Vehicle)
    (hwf : wfVehicle s v) (hpath : v.current_path = some path)
    (htopo : roadsInTopology s) (hinv : occupancyInvariant s (v :: o)) :
    stepOK s v o (stepOnRoute s v path dt) := by
  simp only [stepOnRoute]
  by_cases hIdx : v.current_path_index + 1 < path.length
  · rw [if_pos hIdx]
    have hkA : (lookupK s.road_data
        (path.getD v.current_path_index "", path.getD (v.current_path_index + 1) "")).isSome :=
      hwf.2 path hpath v.current_path_index hIdx
    have hmove := moveToSegment_spec s
      { v with time_on_current_segment := v.time_on_current_segment + dt }
      (path.getD v.current_path_index "", path.getD (v.current_path_index + 1) "")
      (path.getD v.current_path_index "") o
      (fun j hj => hwf.1 j hj) htopo hkA
      (occupancyInvariant_same_claim s v _ o rfl hinv)
    obtain ⟨⟨hinvP, hkeysP, hpathP, hclaimP⟩, hclaimK⟩ := hmove
    by_cases hTime : requiredTime
        (moveToSegment s
          { v with time_on_current_segment := v.time_on_current_segment + dt }
          (path.getD v.current_path_index "", path.getD (v.current_path_index + 1) "")
          (path.getD v.current_path_index "")).1
        (path.getD v.current_path_index "", path.getD (v.current_path_index + 1) "") ≤
        (moveToSegment s
          { v with time_on_current_segment := v.time_on_current_segment + dt }
          (path.getD v.current_path_index "", path.getD (v.current_path_index + 1) "")
          (path.getD v.current_path_index "")).2.time_on_current_segment
    · rw [if_pos hTime]
      have hcomp := completeSegment_spec _ _
        (path.getD v.current_path_index "", path.getD (v.current_path_index + 1) "")
        (path.getD (v.current_path_index + 1) "") path.length v.destination_node_id o
        hclaimK (by rw [hkeysP.1]; exact hkA)
        (roadsInTopology_keysEq hkeysP htopo) hinvP
      obtain ⟨hinvC, hkeysC, hpathC, hclaimC⟩ := hcomp
      exact ⟨hinvC, keysEq_trans hkeysP hkeysC, by rw [hpathC, hpathP], hclaimC⟩
    · rw [if_neg hTime]
      exact ⟨hinvP, hkeysP, hpathP, hclaimP⟩
  · rw [if_neg hIdx]
    exact finishAtEnd_spec s
      { v with time_on_current_segment := v.time_on_current_segment + dt } o
      (fun j hj => hwf.1 j hj) htopo
      (occupancyInvariant_same_claim s v _ o rfl hinv)

theorem stepVehicle_spec (s : NetState) (v : Vehicle) (dt : ℚ)
    (o : List Vehicle) (hwf : wfVehicle s v) (htopo : roadsInTopology s)
    (hinv : occupancyInvariant s (v :: o)) :
    stepOK s v o (stepVehicle s v dt) := by
  cases hstate : v.state <;> cases hpath : v.current_path <;>
    simp only [stepVehicle, hstate, hpath]
  all_goals try exact ⟨hinv, keysEq_refl s, rfl, hwf.1⟩
  rename_i path
  by_cases hnil : path = []
  · rw [if_pos hnil]
    exact ⟨hinv, keysEq_refl s, rfl, hwf.1⟩
  · rw [if_neg hnil]
    exact stepOnRoute_spec s v path dt o hwf hpath htopo hinv

theorem pass_spec (dt : ℚ) (vs : List Vehicle) :
    ∀ (s : NetState) (done : List Vehicle),
      roadsInTopology s → (∀ v ∈ done ++ vs, wfVehicle s v) →
      occupancyInvariant s (done ++ vs) →
      occupancyInvariant (update_vehicle_positions s vs dt).1
        (done ++ (update_vehicle_positions s vs dt).2) := by
  induction vs with
  | nil =>
      intro s done _ _ hinv
      simpa [update_vehicle_positions] using hinv
  | cons v rest ih =>
      intro s done htopo hwf hinv
      have heq : update_vehicle_positions s (v :: rest) dt =
          ((update_vehicle_positions (stepVehicle s v dt).1 rest dt).1,
           (stepVehicle s v dt).2 ::
             (update_vehicle_positions (stepVehicle s v dt).1 rest dt).2) := by
        simp only [update_vehicle_positions]
      rw [heq]
      have hwfv : wfVehicle s v := hwf v (by simp)
      have hinv1 : occupancyInvariant s (v :: (done ++ rest)) :=
        (occupancyInvariant_middle s done rest v).1 hinv
      obtain ⟨hinvS, hkeysS, hpathS, hclaimS⟩ :=
        stepVehicle_spec s v dt (done ++ rest) hwfv htopo hinv1
      have hwfv' : wfVehicle (stepVehicle s v dt).1 (stepVehicle s v dt).2 := by
        constructor
        · exact hclaimS
        · intro p hp i hi
          rw [hkeysS.1]
          exact hwfv.2 p (by rw [← hpathS]; exact hp) i hi
      have htopo1 : roadsInTopology (stepVehicle s v dt).1 :=
        roadsInTopology_keysEq hkeysS htopo
      have hwf1 : ∀ w ∈ (done ++ [(stepVehicle s v dt).2]) ++ rest,
          wfVehicle (stepVehicle s v dt).1 w := by
        intro w hw
        rw [List.append_assoc, List.singleton_append] at hw
        rcases List.mem_append.1 hw with hw | hw
        · exact wfVehicle_keysEq hkeysS w (hwf w (List.mem_append_left _ hw))
        · rcases List.mem_cons.1 hw with rfl | hw
          · exact hwfv'
          · exact wfVehicle_keysEq hkeysS w (hwf w (by simp [hw]))
      have hinv2 : occupancyInvariant (stepVehicle s v dt).1
          ((done ++ [(stepVehicle s v dt).2]) ++ rest) := by
        rw [List.append_assoc, List.singleton_append]
        exact (occupancyInvariant_middle _ done rest _).2 hinvS
      have hres := ih (stepVehicle s v dt).1 (done ++ [(stepVehicle s v dt).2])
        htopo1 hwf1 hinv2
      rw [List.append_assoc, List.singleton_append] at hres
      exact hres

/-- C3: one full pass of `update_vehicle_positions` over the vehicle
population preserves the occupancy accounting: if before the pass every
recorded segment's `current_vehicles` equals the number of vehicles claiming
it — with the hygiene conditions that recorded segments are graph edges and
every vehicle's claimed segment and path edges have records, as in every
state produced by `load_map` and the router — then the same holds after the
pass (i.e. at the next tick boundary). -/
theorem update_vehicle_positions_preserves_occupancy (s : NetState)
    (vs : List Vehicle) (dt : ℚ)
    (htopo : roadsInTopology s) (hwf : ∀ v ∈ vs, wfVehicle s v)
    (hinv : occupancyInvariant s vs) :
    occupancyInvariant (update_vehicle_positions s vs dt).1
      (update_vehicle_positions s vs dt).2 := by
  have h := pass_spec dt vs s [] htopo (by simpa using hwf) (by simpa using hinv)
  simpa using h

/-- A single vehicle about to drive the demo road `A→B`. -/
def demoVehicle : Vehicle :=
  ⟨"v1", "B", "A", none, 0, 0, VState.onRoute, some ["A", "B"]⟩

/-- C3 witness: the preservation theorem applied to the loaded demo map with
one `ON_ROUTE` vehicle and `Δt = 1`. -/
theorem update_vehicle_positions_preserves_occupancy_witness :
    occupancyInvariant (update_vehicle_positions demoState [demoVehicle] 1).1
      (update_vehicle_positions demoState [demoVehicle] 1).2 := by
  apply update_vehicle_positions_preserves_occupancy
  · intro k hk
    rw [demoState_eq] at hk ⊢
    simp only [lookupK] at hk ⊢
    split at hk
    · rename_i h
      rw [if_pos h]
      rfl
    · simp at hk
  · intro v hv
    rw [List.mem_singleton] at hv
    subst hv
    constructor
    · intro k hk
      simp [demoVehicle] at hk
    · intro p hp i hi
      have hp' : p = ["A", "B"] := by
        have : (some ["A", "B"] : Option (List String)) = some p := hp
        exact (Option.some.injEq _ _ ▸ this).symm
      subst hp'
      have hi' : i = 0 := by
        simp only [List.length_cons, List.length_nil] at hi
        omega
      subst hi'
      rw [demoState_eq]
      simp [lookupK]
  · intro k rdr hk
    rw [demoState_eq] at hk
    simp only [lookupK] at hk
    split at hk
    · rename_i h
      rw [Option.some.injEq] at hk
      rw [← hk]
      simp [segCount, demoVehicle, List.countP_cons]
    · simp at hk

end Traffic
